import Mathlib

/-!
Verification of the kluisz-ai-canvas license-and-credit accounting engine.

This file gives a shallow embedding, in Lean 4, of the accounting core of the
repository: the credit ledger (`LicenseService.deduct_credits`,
`LicenseService.add_credits`, `CreditEnforcementService.refund_credits`), the
license-pool manager (`create_or_update_pool_for_tier`,
`assign_license_to_user`, `unassign_license_from_user`,
`upgrade_user_license`), the metering callback
(`KluiszMeteringCallback.finalize_and_deduct`), the pricing engine
(`PricingEngine.calculate_credits_from_cost`) and the subscription renewal
(`SubscriptionService.renew_subscription`).

Python unbounded integers are embedded as `Int`; `Decimal` values (costs,
`credits_per_usd`, `pricing_multiplier`) are embedded as `ℚ`, which is exact
for the decimal arithmetic these functions perform; nullable columns are
`Option`; a mutating service call becomes a pure function from the read
database rows to either an error (the `ValueError` raised) or the written
rows.  Timestamps are irrelevant to every property proved here and are
omitted; dates in the subscription model are embedded as integer day counts.
-/

namespace Kluisz

/-- Error taxonomy: each constructor corresponds to one `raise ValueError`
(or typed error) site in the services. -/
inductive SvcError where
  | userNotFound
  | tenantNotFound
  | tierNotFound
  | noTenant
  | alreadyLicensed
  | noActiveLicense
  | noCurrentTier
  | poolNotFound
  | poolExhausted
  | poolReductionBelowAssigned
  | insufficientCredits
  | subscriptionNotFound
  | subscriptionNotActive
deriving DecidableEq, Repr

/-- License tier row (`license_tier/model.py`): the pricing and default-credit
fields used by the accounting core.  `credits_per_usd` and
`pricing_multiplier` are `Decimal` columns, embedded as `ℚ`. -/
structure LicenseTier where
  default_credits : Int
  default_credits_per_month : Option Int
  credits_per_usd : ℚ
  pricing_multiplier : ℚ
deriving DecidableEq, Repr

/-- User row (`user/model.py`): the license-relevant fields. -/
structure User where
  tenant_id : Option Nat
  license_pool_id : Option Nat
  license_tier_id : Option Nat
  credits_allocated : Int
  credits_used : Int
  credits_per_month : Option Int
  license_is_active : Bool
  is_platform_superadmin : Bool
deriving DecidableEq, Repr

/-- Ledger transaction row (`transactions/model.py`), restricted to the
credit-accounting fields every claim is about. -/
structure Transaction where
  transaction_type : String
  credits_amount : Int
  credits_before : Int
  credits_after : Int
deriving DecidableEq, Repr

/-- One per-tier pool record inside `tenant.license_pools`. -/
structure Pool where
  total_count : Int
  available_count : Int
  assigned_count : Int
deriving DecidableEq, Repr

/-- The `tenant.license_pools` JSON object: an insertion-ordered map from
tier id to pool record, embedded as an association list. -/
abbrev PoolMap : Type := List (Nat × Pool)

/-- Python dict read `pools[tier_id_str]` / `tier_id_str in pools`. -/
def lookupPool (pools : PoolMap) (k : Nat) : Option Pool :=
  match pools with
  | [] => none
  | (k', v) :: rest => if k' = k then some v else lookupPool rest k

/-- Python dict write `pools[tier_id_str] = pool`: replaces the entry in
place when the key exists, appends otherwise. -/
def setPool (pools : PoolMap) (k : Nat) (v : Pool) : PoolMap :=
  match pools with
  | [] => [(k, v)]
  | (k', v') :: rest => if k' = k then (k, v) :: rest else (k', v') :: setPool rest k v

/-- Returning a slot to a tier's pool, the shared step of
`unassign_license_from_user` and `upgrade_user_license`: `available_count`
goes up by one unconditionally, `assigned_count` down by one floored at
zero; a missing pool entry is skipped silently. -/
def poolRelease (pools : PoolMap) (tid : Nat) : PoolMap :=
  match lookupPool pools tid with
  | some pool =>
    setPool pools tid
      { pool with available_count := pool.available_count + 1,
                  assigned_count := max 0 (pool.assigned_count - 1) }
  | none => pools

/-- Consuming a slot from a tier's pool, the second pool write of
`upgrade_user_license` (the entry's presence was checked on the original
map; reading again reproduces the Python dict aliasing). -/
def poolConsume (pools : PoolMap) (tid : Nat) : PoolMap :=
  match lookupPool pools tid with
  | some pool =>
    setPool pools tid
      { pool with available_count := pool.available_count - 1,
                  assigned_count := pool.assigned_count + 1 }
  | none => pools

/-- The function `LicenseService.deduct_credits` (license/service.py lines
295-339).  The `Option User` argument is the result of the `session.get`;
failure returns the raised error and (since the session rolls back) no row is
written. -/
def deduct_credits (user? : Option User) (credits : Int) :
    Except SvcError (User × Transaction) :=
  match user? with
  | none => .error .userNotFound
  | some user =>
    if !user.license_is_active then .error .noActiveLicense
    else
      let credits_remaining := user.credits_allocated - user.credits_used
      if credits_remaining < credits then .error .insufficientCredits
      else
        let credits_before := credits_remaining
        let user' := { user with credits_used := user.credits_used + credits }
        let credits_after := user'.credits_allocated - user'.credits_used
        .ok (user', { transaction_type := "deduction", credits_amount := credits,
                      credits_before := credits_before, credits_after := credits_after })

/-- The function `LicenseService.add_credits` (license/service.py lines
341-375): no license or sign check, only user existence. -/
def add_credits (user? : Option User) (credits : Int) :
    Except SvcError (User × Transaction) :=
  match user? with
  | none => .error .userNotFound
  | some user =>
    let credits_before := user.credits_allocated - user.credits_used
    let user' := { user with credits_allocated := user.credits_allocated + credits }
    let credits_after := user'.credits_allocated - user'.credits_used
    .ok (user', { transaction_type := "addition", credits_amount := credits,
                  credits_before := credits_before, credits_after := credits_after })

/-- The function `CreditEnforcementService.refund_credits`
(credits/enforcement.py lines 235-297): decrements `credits_used`, floored at
0, and records the requested amount. -/
def refund_credits (user? : Option User) (credits : Int) :
    Except SvcError (User × Transaction) :=
  match user? with
  | none => .error .userNotFound
  | some user =>
    let credits_before := user.credits_allocated - user.credits_used
    let user' := { user with credits_used := max 0 (user.credits_used - credits) }
    let credits_after := user'.credits_allocated - user'.credits_used
    .ok (user', { transaction_type := "refund", credits_amount := credits,
                  credits_before := credits_before, credits_after := credits_after })

/-- The function `LicenseService.create_or_update_pool_for_tier`
(license/service.py lines 33-82), acting on the tenant's pool map.  The
tenant and tier existence lookups are abstracted into the caller supplying
the map. -/
def create_or_update_pool_for_tier (pools : PoolMap) (tier_id : Nat)
    (total_count : Int) : Except SvcError PoolMap :=
  match lookupPool pools tier_id with
  | some pool =>
    let current_assigned := pool.assigned_count
    if total_count < current_assigned then .error .poolReductionBelowAssigned
    else
      .ok (setPool pools tier_id
        { pool with total_count := total_count,
                    available_count := total_count - current_assigned })
  | none =>
    .ok (setPool pools tier_id
      { total_count := total_count, available_count := total_count, assigned_count := 0 })

/-- The function `LicenseService.assign_license_to_user` (license/service.py
lines 84-146).  `tier?` is the `session.get(LicenseTier, tier_id)` result and
`pools` the tenant's pool map. -/
def assign_license_to_user (user? : Option User) (tier_id : Nat)
    (tier? : Option LicenseTier) (pools : PoolMap) :
    Except SvcError (User × PoolMap) :=
  match user? with
  | none => .error .userNotFound
  | some user =>
    if user.tenant_id = none then .error .noTenant
    else if user.license_is_active then .error .alreadyLicensed
    else
      match tier? with
      | none => .error .tierNotFound
      | some tier =>
        match lookupPool pools tier_id with
        | none => .error .poolNotFound
        | some pool =>
          if pool.available_count ≤ 0 then .error .poolExhausted
          else
            let pool' := { pool with available_count := pool.available_count - 1,
                                     assigned_count := pool.assigned_count + 1 }
            let user' := { user with
              license_pool_id := some tier_id,
              license_tier_id := some tier_id,
              credits_allocated := tier.default_credits,
              credits_used := 0,
              credits_per_month := tier.default_credits_per_month,
              license_is_active := true }
            .ok (user', setPool pools tier_id pool')

/-- The function `LicenseService.unassign_license_from_user`
(license/service.py lines 148-194).  When the user's tier has no pool entry
the pool map is left untouched but the user is still cleared. -/
def unassign_license_from_user (user? : Option User) (pools : PoolMap) :
    Except SvcError (User × PoolMap) :=
  match user? with
  | none => .error .userNotFound
  | some user =>
    if !user.license_is_active || user.license_tier_id = none then .error .noActiveLicense
    else if user.tenant_id = none then .error .noTenant
    else
      let pools' :=
        match user.license_tier_id with
        | some tid => poolRelease pools tid
        | none => pools
      let user' := { user with
        license_pool_id := none,
        license_tier_id := none,
        credits_allocated := 0,
        credits_used := 0,
        credits_per_month := none,
        license_is_active := false }
      .ok (user', pools')

/-- The function `LicenseService.upgrade_user_license` (license/service.py
lines 196-293).  The availability check reads the new-tier pool before the
old slot is returned; the new-tier write then reads the map again, which
reproduces the Python aliasing when the old and new tiers coincide. -/
def upgrade_user_license (user? : Option User) (new_tier_id : Nat)
    (new_tier? : Option LicenseTier) (pools : PoolMap) (preserve_credits : Bool) :
    Except SvcError (User × PoolMap × Transaction) :=
  match user? with
  | none => .error .userNotFound
  | some user =>
    if !user.license_is_active then .error .noActiveLicense
    else if user.tenant_id = none then .error .noTenant
    else
      match user.license_tier_id with
      | none => .error .noCurrentTier
      | some old_tier_id =>
        match new_tier? with
        | none => .error .tierNotFound
        | some new_tier =>
          match lookupPool pools new_tier_id with
          | none => .error .poolNotFound
          | some pool =>
            if pool.available_count ≤ 0 then .error .poolExhausted
            else
              let pools1 := poolRelease pools old_tier_id
              let pools2 := poolConsume pools1 new_tier_id
              let old_credits := user.credits_allocated
              let new_allocated :=
                if preserve_credits then
                  user.credits_allocated - user.credits_used + new_tier.default_credits
                else new_tier.default_credits
              let user' := { user with
                credits_allocated := new_allocated,
                credits_used := 0,
                license_pool_id := some new_tier_id,
                license_tier_id := some new_tier_id,
                credits_per_month := new_tier.default_credits_per_month }
              let tx : Transaction :=
                { transaction_type := "upgrade",
                  credits_amount := new_tier.default_credits,
                  credits_before := old_credits,
                  credits_after := new_allocated }
              .ok (user', pools2, tx)

/-- Truncation toward zero: the semantics of Python `int()` applied to an
exact `Decimal`, as in `credits = int(adjusted_cost * credits_per_usd)` in
`finalize_and_deduct` (metering_callback.py line 612). -/
def truncToInt (q : ℚ) : Int :=
  if 0 ≤ q then Int.floor q else -(Int.floor (-q))

/-- Round to the nearest integer with ties going to the even integer: the
semantics of `Decimal.quantize(Decimal("1"))` under Python's default
`ROUND_HALF_EVEN` context, as in `PricingEngine.calculate_credits_from_cost`
(pricing/engine.py line 179). -/
def roundHalfEven (q : ℚ) : Int :=
  let f := Int.floor q
  if q - f < 1 / 2 then f
  else if 1 / 2 < q - f then f + 1
  else if f % 2 = 0 then f else f + 1

/-- The accumulated state of one `KluiszMeteringCallback`
(metering_callback.py `__init__` lines 117-123): per-trace token totals and
total cost.  `on_llm_end` only ever adds to these fields and
`finalize_and_deduct` never resets them. -/
structure Meter where
  total_input_tokens : Int
  total_output_tokens : Int
  total_tokens : Int
  total_cost : ℚ
deriving DecidableEq, Repr

/-- A fresh accumulator as built by `KluiszMeteringCallback.__init__`. -/
def Meter.init : Meter :=
  { total_input_tokens := 0, total_output_tokens := 0, total_tokens := 0, total_cost := 0 }

/-- The credit amount computed inside `finalize_and_deduct` before the
1-credit floor (metering_callback.py lines 600-612): `credits_per_usd`
defaults to 100 when the tier column is zero, the pricing multiplier is
applied when non-zero, and the product is truncated by `int()`. -/
def raw_credits (m : Meter) (tier : LicenseTier) : Int :=
  let credits_per_usd : ℚ :=
    if tier.credits_per_usd ≠ 0 then tier.credits_per_usd else 100
  let adjusted_cost : ℚ :=
    if tier.pricing_multiplier ≠ 0 then m.total_cost * tier.pricing_multiplier
    else m.total_cost
  truncToInt (adjusted_cost * credits_per_usd)

/-- The credit amount after the floor of 1 credit applied when tokens were
consumed but the computed amount is zero (metering_callback.py lines
620-622). -/
def metered_credits (m : Meter) (tier : LicenseTier) : Int :=
  let credits := raw_credits m tier
  if credits = 0 ∧ 0 < m.total_tokens then 1 else credits

/-- Outcome of `finalize_and_deduct`: a no-op result (the returned dict with
`credits_deducted = 0` and a `reason`), a caught failure (the returned dict
with an `error` key), or a performed deduction with the written user row and
transaction row.  In the first two cases no row is written. -/
inductive FinalizeRes where
  | noop (reason : String)
  | failed (msg : String)
  | deducted (user : User) (tx : Transaction) (credits : Int)
deriving DecidableEq, Repr

/-- The method `KluiszMeteringCallback.finalize_and_deduct`
(metering_callback.py lines 521-734).  `user?` and `tier?` are the two
`session.get` results. -/
def finalize_and_deduct (m : Meter) (user? : Option User)
    (tier? : Option LicenseTier) : FinalizeRes :=
  if m.total_cost ≤ 0 then .noop "no_cost_incurred"
  else
    match user? with
    | none => .failed "User not found"
    | some user =>
      if user.is_platform_superadmin then .noop "superadmin"
      else if !user.license_is_active || user.license_tier_id = none then
        .noop "no_active_license"
      else
        match tier? with
        | none => .failed "License tier not found"
        | some tier =>
          let credits := metered_credits m tier
          if credits ≤ 0 then .noop "zero_credits_calculated"
          else
            let credits_before := user.credits_allocated - user.credits_used
            let user' := { user with credits_used := user.credits_used + credits }
            let credits_after := user.credits_allocated - user'.credits_used
            .deducted user'
              { transaction_type := "deduction", credits_amount := credits,
                credits_before := credits_before, credits_after := credits_after }
              credits

/-- The method `PricingEngine.calculate_credits_from_cost` (pricing/engine.py
lines 146-183): multiply by the tier's `credits_per_usd` (`or 0` is the
identity on the `Decimal` column) and `quantize(Decimal("1"))` the result. -/
def calculate_credits_from_cost (cost_usd : ℚ) (tier? : Option LicenseTier) :
    Except SvcError Int :=
  match tier? with
  | none => .error .tierNotFound
  | some tier => .ok (roundHalfEven (cost_usd * tier.credits_per_usd))

/-- Subscription row (`subscription/model.py`), restricted to the fields
`renew_subscription` reads or writes; dates are integer day counts. -/
structure Subscription where
  tenant_id : Nat
  status : String
  renewal_date : Option Int
  next_payment_date : Option Int
  last_payment_date : Option Int
deriving DecidableEq, Repr

/-- The per-user top-up performed by `renew_subscription`
(subscription/service.py lines 133-145): the select filters the tenant's
users with an active license and a non-null `credits_per_month`, and the
`if user.credits_per_month:` guard further skips a zero amount. -/
def renew_topup (tid : Nat) (u : User) : User :=
  if u.tenant_id = some tid ∧ u.license_is_active then
    match u.credits_per_month with
    | some c => if c ≠ 0 then { u with credits_allocated := u.credits_allocated + c } else u
    | none => u
  else u

/-- The method `SubscriptionService.renew_subscription`
(subscription/service.py lines 110-160).  `users` is the user table;
`tenant_found` is whether the `session.get(Tenant, ...)` succeeded (when it
does not, the top-up block is skipped but the renewal still commits). -/
def renew_subscription (sub? : Option Subscription) (tenant_found : Bool)
    (users : List User) (now : Int) : Except SvcError (Subscription × List User) :=
  match sub? with
  | none => .error .subscriptionNotFound
  | some sub =>
    if sub.status ≠ "active" then .error .subscriptionNotActive
    else
      let renewal_date :=
        match sub.renewal_date with
        | some d => d + 30
        | none => now + 30
      let sub' := { sub with
        last_payment_date := some now,
        next_payment_date := some renewal_date,
        renewal_date := some renewal_date }
      let users' := if tenant_found then users.map (renew_topup sub.tenant_id) else users
      .ok (sub', users')

/-- Database state seen by the ledger operations of one user: the user row,
the tenant's pool map, and the append-only transaction table restricted to
that user in insertion order. -/
structure SysState where
  user : User
  pools : PoolMap
  ledger : List Transaction
deriving DecidableEq, Repr

/-- One ledger-mutating call against a `SysState`. -/
inductive LedgerOp where
  | deduct (credits : Int)
  | add (credits : Int)
  | refund (credits : Int)
  | finalize (m : Meter) (tier? : Option LicenseTier)
  | upgrade (new_tier_id : Nat) (new_tier : LicenseTier) (preserve_credits : Bool)

/-- Whether the operation is the license upgrade. -/
def LedgerOp.isUpgrade : LedgerOp → Bool
  | .upgrade _ _ _ => true
  | _ => false

/-- Dispatch one call: on success the written rows are committed (the new
user row, possibly new pool map, and exactly the transaction rows the call
created appended to the table); a raised error commits nothing.  A
`finalize_and_deduct` no-op or caught failure returns normally and writes
nothing. -/
def applyOp (s : SysState) : LedgerOp → Except SvcError SysState
  | .deduct credits =>
    match deduct_credits (some s.user) credits with
    | .error e => .error e
    | .ok (u', tx) => .ok { user := u', pools := s.pools, ledger := s.ledger ++ [tx] }
  | .add credits =>
    match add_credits (some s.user) credits with
    | .error e => .error e
    | .ok (u', tx) => .ok { user := u', pools := s.pools, ledger := s.ledger ++ [tx] }
  | .refund credits =>
    match refund_credits (some s.user) credits with
    | .error e => .error e
    | .ok (u', tx) => .ok { user := u', pools := s.pools, ledger := s.ledger ++ [tx] }
  | .finalize m tier? =>
    match finalize_and_deduct m (some s.user) tier? with
    | .noop _ => .ok s
    | .failed _ => .ok s
    | .deducted u' tx _ => .ok { user := u', pools := s.pools, ledger := s.ledger ++ [tx] }
  | .upgrade new_tier_id new_tier preserve_credits =>
    match upgrade_user_license (some s.user) new_tier_id (some new_tier) s.pools preserve_credits with
    | .error e => .error e
    | .ok (u', pools', tx) => .ok { user := u', pools := pools', ledger := s.ledger ++ [tx] }

/-- The API-layer view of one call: a raised error rolls the transaction
back, so the state is unchanged. -/
def tryOp (s : SysState) (op : LedgerOp) : SysState :=
  match applyOp s op with
  | .error _ => s
  | .ok s' => s'

/-- A sequential history of calls in which every call succeeds. -/
def runOps (s : SysState) : List LedgerOp → Except SvcError SysState
  | [] => .ok s
  | op :: ops =>
    match applyOp s op with
    | .error e => .error e
    | .ok s' => runOps s' ops

/-- The per-user ledger linearization check: each transaction's
`credits_before` equals the previous transaction's `credits_after`. -/
def chainOkB : List Transaction → Bool
  | [] => true
  | [_] => true
  | tx1 :: tx2 :: rest => (tx2.credits_before == tx1.credits_after) && chainOkB (tx2 :: rest)

/-- The last ledger row's `credits_after` agrees with the user row's current
remaining balance (trivially true for an empty ledger). -/
def syncOk (s : SysState) : Bool :=
  match s.ledger.getLast? with
  | none => true
  | some tx => tx.credits_after == s.user.credits_allocated - s.user.credits_used

/-- The pool capacity invariant `available_count + assigned_count ==
total_count`, checked on every entry of the map. -/
def mapInvB (pools : PoolMap) : Bool :=
  List.all pools (fun kp => kp.2.available_count + kp.2.assigned_count == kp.2.total_count)

/-- The slot being released actually counts at least one assignee: the
pool entry of the given tier (when both exist) has `assigned_count ≥ 1`. -/
def releaseOk (pools : PoolMap) (tid? : Option Nat) : Bool :=
  match tid? with
  | none => true
  | some tid =>
    match lookupPool pools tid with
    | none => true
    | some pool => 1 ≤ pool.assigned_count

/-- A successful non-upgrade ledger call either leaves the user row and the
ledger untouched, or appends one transaction whose endpoints are the user's
remaining balance before and after the call. -/
def goodStep (s s' : SysState) : Prop :=
  (s'.user = s.user ∧ s'.ledger = s.ledger) ∨
  ∃ tx, s'.ledger = s.ledger ++ [tx] ∧
    tx.credits_before = s.user.credits_allocated - s.user.credits_used ∧
    tx.credits_after = s'.user.credits_allocated - s'.user.credits_used

/-! Concrete database fixtures used by the counterexample and witness
theorems below. -/

/-- An active licensed user holding 1 allocated credit, none used. -/
def lowUser : User :=
  { tenant_id := some 1, license_pool_id := some 1, license_tier_id := some 1,
    credits_allocated := 1, credits_used := 0, credits_per_month := none,
    license_is_active := true, is_platform_superadmin := false }

/-- A tier converting at 100 credits per USD with the neutral multiplier. -/
def stdTier : LicenseTier :=
  { default_credits := 1000, default_credits_per_month := some 100,
    credits_per_usd := 100, pricing_multiplier := 1 }

/-- An accumulator that observed 500 tokens costing five cents. -/
def nickelMeter : Meter :=
  { total_input_tokens := 400, total_output_tokens := 100, total_tokens := 500,
    total_cost := 1 / 20 }

/-- An active licensed user with 10 allocated credits, 5 used. -/
def midUser : User :=
  { tenant_id := some 1, license_pool_id := some 1, license_tier_id := some 1,
    credits_allocated := 10, credits_used := 5, credits_per_month := some 100,
    license_is_active := true, is_platform_superadmin := false }

/-- An active licensed user on tier 7 whose tenant pool for tier 7 records
zero assignees (a state allowed by the claim's precondition). -/
def strayUser : User :=
  { tenant_id := some 1, license_pool_id := some 7, license_tier_id := some 7,
    credits_allocated := 10, credits_used := 0, credits_per_month := none,
    license_is_active := true, is_platform_superadmin := false }

/-- A pool map whose only pool satisfies the capacity invariant with
`assigned_count = 0`. -/
def strayPools : PoolMap :=
  [(7, { total_count := 2, available_count := 2, assigned_count := 0 })]

/-- A consistent pool map: tier 1 fully assigned to one seat, tier 2 free. -/
def twoTierPools : PoolMap :=
  [(1, { total_count := 1, available_count := 0, assigned_count := 1 }),
   (2, { total_count := 1, available_count := 1, assigned_count := 0 })]

/-- A second tier granting 20 default credits, used as an upgrade target. -/
def bigTier : LicenseTier :=
  { default_credits := 20, default_credits_per_month := none,
    credits_per_usd := 100, pricing_multiplier := 1 }

/-- A user holding the tier-1 seat of `twoTierPools` with a part-spent
balance. -/
def seatUser : User :=
  { tenant_id := some 1, license_pool_id := some 1, license_tier_id := some 1,
    credits_allocated := 10, credits_used := 0, credits_per_month := none,
    license_is_active := true, is_platform_superadmin := false }

/-- An unlicensed user of tenant 1, eligible for `assign_license_to_user`. -/
def freshUser : User :=
  { tenant_id := some 1, license_pool_id := none, license_tier_id := none,
    credits_allocated := 0, credits_used := 0, credits_per_month := none,
    license_is_active := false, is_platform_superadmin := false }

/-- Initial system state for the ledger-history theorems. -/
def seatState : SysState :=
  { user := seatUser, pools := twoTierPools, ledger := [] }

/-- An active subscription whose `next_payment_date` differs from its
`renewal_date`. -/
def skewedSub : Subscription :=
  { tenant_id := 1, status := "active", renewal_date := some 0,
    next_payment_date := some 5, last_payment_date := none }

/-- A platform superadmin, exempt from metering. -/
def adminUser : User :=
  { tenant_id := some 1, license_pool_id := none, license_tier_id := none,
    credits_allocated := 0, credits_used := 0, credits_per_month := none,
    license_is_active := false, is_platform_superadmin := true }

/-- An accumulator whose cost is positive but rounds to zero credits. -/
def tinyMeter : Meter :=
  { total_input_tokens := 5, total_output_tokens := 2, total_tokens := 7,
    total_cost := 1 / 100000 }

/-- A second actively licensed user of tenant 1 with a monthly allowance. -/
def renewUserB : User :=
  { tenant_id := some 1, license_pool_id := some 1, license_tier_id := some 1,
    credits_allocated := 50, credits_used := 20, credits_per_month := some 100,
    license_is_active := true, is_platform_superadmin := false }

/-- An active subscription with aligned renewal and payment dates. -/
def renewSub : Subscription :=
  { tenant_id := 1, status := "active", renewal_date := some 10,
    next_payment_date := some 10, last_payment_date := none }

/-! Helper lemmas about the pool map, the ledger chain and the endpoints of
each transaction-writing operation. -/

theorem all_setPool (P : Nat × Pool → Bool) (pools : PoolMap) (k : Nat) (v : Pool)
    (h : pools.all P = true) (hv : P (k, v) = true) :
    (setPool pools k v).all P = true := by
  induction pools with
  | nil =>
    show List.all [(k, v)] P = true
    rw [List.all_cons, Bool.and_eq_true]
    exact ⟨hv, rfl⟩
  | cons kv rest ih =>
    obtain ⟨k', v'⟩ := kv
    rw [List.all_cons, Bool.and_eq_true] at h
    by_cases hk : k' = k
    · show List.all (if k' = k then (k, v) :: rest else (k', v') :: setPool rest k v) P = true
      rw [if_pos hk, List.all_cons, Bool.and_eq_true]
      exact ⟨hv, h.2⟩
    · show List.all (if k' = k then (k, v) :: rest else (k', v') :: setPool rest k v) P = true
      rw [if_neg hk, List.all_cons, Bool.and_eq_true]
      exact ⟨h.1, ih h.2⟩

theorem all_lookupPool (P : Nat × Pool → Bool) (pools : PoolMap) (k : Nat) (p : Pool)
    (h : pools.all P = true) (hl : lookupPool pools k = some p) : P (k, p) = true := by
  induction pools with
  | nil => exact absurd hl (by simp [lookupPool])
  | cons kv rest ih =>
    obtain ⟨k', v'⟩ := kv
    rw [List.all_cons, Bool.and_eq_true] at h
    by_cases hk : k' = k
    · subst hk
      have hl' : some v' = some p := by
        rw [show lookupPool ((k', v') :: rest) k' = if k' = k' then some v' else lookupPool rest k' from rfl, if_pos rfl] at hl
        exact hl
      cases hl'
      exact h.1
    · rw [show lookupPool ((k', v') :: rest) k = if k' = k then some v' else lookupPool rest k from rfl, if_neg hk] at hl
      exact ih h.2 hl

theorem getLast?_append_singleton (l : List Transaction) (tx : Transaction) :
    (l ++ [tx]).getLast? = some tx := by
  induction l with
  | nil => rfl
  | cons a rest ih =>
    rw [List.cons_append]
    cases h : rest ++ [tx] with
    | nil => exact absurd h (by simp)
    | cons b r => rw [List.getLast?_cons_cons, ← h, ih]

theorem chainOkB_append_iff (l : List Transaction) (tx : Transaction) :
    chainOkB (l ++ [tx]) = true ↔
      (chainOkB l = true ∧ ∀ t, l.getLast? = some t → tx.credits_before = t.credits_after) := by
  induction l with
  | nil => simp [chainOkB]
  | cons a rest ih =>
    cases rest with
    | nil =>
      show ((tx.credits_before == a.credits_after) && chainOkB [tx]) = true ↔ _
      rw [Bool.and_eq_true, beq_iff_eq]
      constructor
      · rintro ⟨h1, _⟩
        refine ⟨rfl, fun t ht => ?_⟩
        have : a = t := by simpa using ht
        rw [← this]
        exact h1
      · rintro ⟨_, h2⟩
        exact ⟨h2 a (by simp), rfl⟩
    | cons b r =>
      rw [List.cons_append, List.cons_append]
      show ((b.credits_before == a.credits_after) && chainOkB (b :: (r ++ [tx]))) = true ↔ _
      rw [Bool.and_eq_true, beq_iff_eq]
      rw [show b :: (r ++ [tx]) = (b :: r) ++ [tx] from rfl, ih]
      constructor
      · rintro ⟨h1, h2, h3⟩
        refine ⟨?_, ?_⟩
        · show ((b.credits_before == a.credits_after) && chainOkB (b :: r)) = true
          rw [Bool.and_eq_true, beq_iff_eq]
          exact ⟨h1, h2⟩
        · intro t ht
          rw [List.getLast?_cons_cons] at ht
          exact h3 t ht
      · rintro ⟨h1, h2⟩
        have h1' : b.credits_before = a.credits_after ∧ chainOkB (b :: r) = true := by
          have := h1
          rw [show chainOkB (a :: b :: r) =
            ((b.credits_before == a.credits_after) && chainOkB (b :: r)) from rfl,
            Bool.and_eq_true, beq_iff_eq] at this
          exact this
        refine ⟨h1'.1, h1'.2, ?_⟩
        intro t ht
        exact h2 t (by rw [List.getLast?_cons_cons]; exact ht)

theorem deduct_credits_ok_cond (u u' : User) (c : Int) (tx : Transaction)
    (h : deduct_credits (some u) c = .ok (u', tx)) :
    u.license_is_active = true ∧ c ≤ u.credits_allocated - u.credits_used := by
  simp only [deduct_credits] at h
  split at h
  next hb => simp at h
  next hb =>
    split at h
    next hlt => simp at h
    next hlt =>
      refine ⟨?_, by omega⟩
      revert hb
      cases u.license_is_active <;> simp

theorem deduct_credits_endpoints (u u' : User) (c : Int) (tx : Transaction)
    (h : deduct_credits (some u) c = .ok (u', tx)) :
    u'.credits_allocated = u.credits_allocated ∧
    u'.credits_used = u.credits_used + c ∧
    tx.credits_before = u.credits_allocated - u.credits_used ∧
    tx.credits_after = u'.credits_allocated - u'.credits_used := by
  simp only [deduct_credits] at h
  split at h
  · simp at h
  · split at h
    · simp at h
    · simp only [Except.ok.injEq, Prod.mk.injEq] at h
      obtain ⟨hu, htx⟩ := h
      subst hu htx
      simp

theorem add_credits_endpoints (u u' : User) (c : Int) (tx : Transaction)
    (h : add_credits (some u) c = .ok (u', tx)) :
    u'.credits_allocated = u.credits_allocated + c ∧
    u'.credits_used = u.credits_used ∧
    tx.credits_before = u.credits_allocated - u.credits_used ∧
    tx.credits_after = u'.credits_allocated - u'.credits_used := by
  simp only [add_credits, Except.ok.injEq, Prod.mk.injEq] at h
  obtain ⟨hu, htx⟩ := h
  subst hu htx
  simp

theorem refund_credits_endpoints (u u' : User) (c : Int) (tx : Transaction)
    (h : refund_credits (some u) c = .ok (u', tx)) :
    u'.credits_allocated = u.credits_allocated ∧
    u'.credits_used = max 0 (u.credits_used - c) ∧
    tx.credits_before = u.credits_allocated - u.credits_used ∧
    tx.credits_after = u'.credits_allocated - u'.credits_used := by
  simp only [refund_credits, Except.ok.injEq, Prod.mk.injEq] at h
  obtain ⟨hu, htx⟩ := h
  subst hu htx
  simp

theorem finalize_deducted_endpoints (m : Meter) (u u' : User)
    (t? : Option LicenseTier) (tx : Transaction) (c : Int)
    (h : finalize_and_deduct m (some u) t? = .deducted u' tx c) :
    u'.credits_allocated = u.credits_allocated ∧
    u'.credits_used = u.credits_used + c ∧
    tx.credits_before = u.credits_allocated - u.credits_used ∧
    tx.credits_after = u'.credits_allocated - u'.credits_used := by
  cases t? with
  | none =>
    simp only [finalize_and_deduct] at h
    split at h
    · simp at h
    · split at h
      · simp at h
      · split at h
        · simp at h
        · simp at h
  | some tier =>
    simp only [finalize_and_deduct] at h
    split at h
    · simp at h
    · split at h
      · simp at h
      · split at h
        · simp at h
        · split at h
          · simp at h
          · simp only [FinalizeRes.deducted.injEq] at h
            obtain ⟨hu, htx, hc⟩ := h
            subst hu htx hc
            simp

theorem deduct_credits_tx_kind (u u' : User) (c : Int) (tx : Transaction)
    (h : deduct_credits (some u) c = .ok (u', tx)) :
    tx.transaction_type = "deduction" ∧ tx.credits_amount = c := by
  simp only [deduct_credits] at h
  split at h
  · simp at h
  · split at h
    · simp at h
    · simp only [Except.ok.injEq, Prod.mk.injEq] at h
      obtain ⟨hu, htx⟩ := h
      subst htx
      exact ⟨rfl, rfl⟩

theorem add_credits_tx_kind (u u' : User) (c : Int) (tx : Transaction)
    (h : add_credits (some u) c = .ok (u', tx)) :
    tx.transaction_type = "addition" ∧ tx.credits_amount = c := by
  simp only [add_credits, Except.ok.injEq, Prod.mk.injEq] at h
  obtain ⟨hu, htx⟩ := h
  subst htx
  exact ⟨rfl, rfl⟩

theorem refund_credits_tx_kind (u u' : User) (c : Int) (tx : Transaction)
    (h : refund_credits (some u) c = .ok (u', tx)) :
    tx.transaction_type = "refund" ∧ tx.credits_amount = c := by
  simp only [refund_credits, Except.ok.injEq, Prod.mk.injEq] at h
  obtain ⟨hu, htx⟩ := h
  subst htx
  exact ⟨rfl, rfl⟩

theorem upgrade_tx_fields (u : User) (ntid : Nat) (nt : LicenseTier) (pools : PoolMap)
    (pc : Bool) (u' : User) (pools' : PoolMap) (tx : Transaction)
    (h : upgrade_user_license (some u) ntid (some nt) pools pc = .ok (u', pools', tx)) :
    tx.transaction_type = "upgrade" ∧
    tx.credits_amount = nt.default_credits ∧
    tx.credits_before = u.credits_allocated ∧
    tx.credits_after =
      (if pc then u.credits_allocated - u.credits_used + nt.default_credits
       else nt.default_credits) ∧
    u'.credits_allocated = tx.credits_after ∧
    u'.credits_used = 0 := by
  simp only [upgrade_user_license] at h
  split at h
  · simp at h
  · split at h
    · simp at h
    · split at h
      · simp at h
      · split at h
        · simp at h
        · split at h
          · simp at h
          · simp only [Except.ok.injEq, Prod.mk.injEq] at h
            obtain ⟨hu, hp, htx⟩ := h
            subst hu htx
            cases pc <;> simp

/-- Reduction of `finalize_and_deduct` on the deduction path: with positive
cost, a non-superadmin actively licensed user, a found tier and a positive
computed credit amount, the call deducts `metered_credits` and writes the
matching transaction. -/
theorem finalize_deduct_eq (m : Meter) (u : User) (tier : LicenseTier)
    (hcost : 0 < m.total_cost) (hsa : u.is_platform_superadmin = false)
    (hact : u.license_is_active = true) (htid : u.license_tier_id ≠ none)
    (hcred : 0 < metered_credits m tier) :
    finalize_and_deduct m (some u) (some tier) =
      .deducted { u with credits_used := u.credits_used + metered_credits m tier }
        { transaction_type := "deduction",
          credits_amount := metered_credits m tier,
          credits_before := u.credits_allocated - u.credits_used,
          credits_after := u.credits_allocated - (u.credits_used + metered_credits m tier) }
        (metered_credits m tier) := by
  simp only [finalize_and_deduct]
  rw [if_neg (not_le.mpr hcost), if_neg (by simp [hsa]), if_neg (by simp [hact, htid]),
    if_neg (not_le.mpr hcred)]

theorem applyOp_goodStep (s s' : SysState) (op : LedgerOp)
    (hop : op.isUpgrade = false) (h : applyOp s op = .ok s') : goodStep s s' := by
  cases op with
  | deduct c =>
    simp only [applyOp] at h
    cases hd : deduct_credits (some s.user) c with
    | error e => rw [hd] at h; simp at h
    | ok p =>
      obtain ⟨u', tx⟩ := p
      rw [hd] at h
      simp only [Except.ok.injEq] at h
      subst h
      obtain ⟨_, _, hb, ha⟩ := deduct_credits_endpoints _ _ _ _ hd
      exact Or.inr ⟨tx, rfl, hb, ha⟩
  | add c =>
    simp only [applyOp] at h
    cases hd : add_credits (some s.user) c with
    | error e => rw [hd] at h; simp at h
    | ok p =>
      obtain ⟨u', tx⟩ := p
      rw [hd] at h
      simp only [Except.ok.injEq] at h
      subst h
      obtain ⟨_, _, hb, ha⟩ := add_credits_endpoints _ _ _ _ hd
      exact Or.inr ⟨tx, rfl, hb, ha⟩
  | refund c =>
    simp only [applyOp] at h
    cases hd : refund_credits (some s.user) c with
    | error e => rw [hd] at h; simp at h
    | ok p =>
      obtain ⟨u', tx⟩ := p
      rw [hd] at h
      simp only [Except.ok.injEq] at h
      subst h
      obtain ⟨_, _, hb, ha⟩ := refund_credits_endpoints _ _ _ _ hd
      exact Or.inr ⟨tx, rfl, hb, ha⟩
  | finalize m t? =>
    simp only [applyOp] at h
    cases hf : finalize_and_deduct m (some s.user) t? with
    | noop r =>
      rw [hf] at h
      simp only [Except.ok.injEq] at h
      subst h
      exact Or.inl ⟨rfl, rfl⟩
    | failed msg =>
      rw [hf] at h
      simp only [Except.ok.injEq] at h
      subst h
      exact Or.inl ⟨rfl, rfl⟩
    | deducted u' tx c =>
      rw [hf] at h
      simp only [Except.ok.injEq] at h
      subst h
      obtain ⟨_, _, hb, ha⟩ := finalize_deducted_endpoints _ _ _ _ _ _ hf
      exact Or.inr ⟨tx, rfl, hb, ha⟩
  | upgrade a b c => simp [LedgerOp.isUpgrade] at hop

theorem goodStep_inv (s s' : SysState) (h : goodStep s s')
    (hchain : chainOkB s.ledger = true) (hsync : syncOk s = true) :
    chainOkB s'.ledger = true ∧ syncOk s' = true := by
  rcases h with ⟨hu, hl⟩ | ⟨tx, hl, hb, ha⟩
  · refine ⟨by rw [hl]; exact hchain, ?_⟩
    unfold syncOk at hsync ⊢
    rw [hl, hu]
    exact hsync
  · refine ⟨?_, ?_⟩
    · rw [hl, chainOkB_append_iff]
      refine ⟨hchain, fun t ht => ?_⟩
      unfold syncOk at hsync
      rw [ht] at hsync
      rw [hb]
      exact (beq_iff_eq.mp hsync).symm
    · unfold syncOk
      rw [hl, getLast?_append_singleton]
      show (tx.credits_after == s'.user.credits_allocated - s'.user.credits_used) = true
      rw [ha]
      exact beq_self_eq_true _

theorem mapInvB_setPool (pools : PoolMap) (k : Nat) (v : Pool)
    (h : mapInvB pools = true)
    (hv : v.available_count + v.assigned_count = v.total_count) :
    mapInvB (setPool pools k v) = true := by
  simp only [mapInvB] at h ⊢
  exact all_setPool _ _ _ _ h (by simpa using hv)

theorem mapInvB_lookupPool (pools : PoolMap) (k : Nat) (p : Pool)
    (h : mapInvB pools = true) (hl : lookupPool pools k = some p) :
    p.available_count + p.assigned_count = p.total_count := by
  have := all_lookupPool
    (fun kp => kp.2.available_count + kp.2.assigned_count == kp.2.total_count)
    pools k p (by simpa [mapInvB] using h) hl
  simpa using this

theorem mapInvB_poolRelease (pools : PoolMap) (tid : Nat)
    (hinv : mapInvB pools = true) (hrel : releaseOk pools (some tid) = true) :
    mapInvB (poolRelease pools tid) = true := by
  unfold poolRelease
  cases hl : lookupPool pools tid with
  | none => exact hinv
  | some pool =>
    have hp := mapInvB_lookupPool pools tid pool hinv hl
    have hone : 1 ≤ pool.assigned_count := by
      simpa [releaseOk, hl] using hrel
    exact mapInvB_setPool _ _ _ hinv (by simp only []; omega)

theorem mapInvB_poolConsume (pools : PoolMap) (tid : Nat)
    (hinv : mapInvB pools = true) :
    mapInvB (poolConsume pools tid) = true := by
  unfold poolConsume
  cases hl : lookupPool pools tid with
  | none => exact hinv
  | some pool =>
    have hp := mapInvB_lookupPool pools tid pool hinv hl
    exact mapInvB_setPool _ _ _ hinv (by simp only []; omega)

/-! Claim theorems. -/

/-- C3: for a user with an active license, `deduct_credits` fails with
`InsufficientCredits` if and only if the remaining balance
`credits_allocated - credits_used` is below the requested amount; on failure
the user row and the ledger are unchanged, and on success `credits_used`
grows by exactly the requested amount and exactly one `deduction`
transaction is appended whose `credits_before`/`credits_after` are the
remaining balance before and after the mutation. -/
theorem C3_deduct_credits_spec (s : SysState) (c : Int)
    (hact : s.user.license_is_active = true) :
    (deduct_credits (some s.user) c = .error .insufficientCredits ↔
      s.user.credits_allocated - s.user.credits_used < c) ∧
    (s.user.credits_allocated - s.user.credits_used < c → tryOp s (.deduct c) = s) ∧
    (∀ u' tx, deduct_credits (some s.user) c = .ok (u', tx) →
      u'.credits_used = s.user.credits_used + c ∧
      u'.credits_allocated = s.user.credits_allocated ∧
      applyOp s (.deduct c) =
        .ok { user := u', pools := s.pools, ledger := s.ledger ++ [tx] } ∧
      tx.transaction_type = "deduction" ∧
      tx.credits_amount = c ∧
      tx.credits_before = s.user.credits_allocated - s.user.credits_used ∧
      tx.credits_after = s.user.credits_allocated - s.user.credits_used - c) := by
  refine ⟨?_, ?_, ?_⟩
  · by_cases hlt : s.user.credits_allocated - s.user.credits_used < c
    · simp [deduct_credits, hact, hlt]
    · simp [deduct_credits, hact, hlt]
  · intro hlt
    simp [tryOp, applyOp, deduct_credits, hact, hlt]
  · intro u' tx h
    obtain ⟨ha, hu, hb, hf⟩ := deduct_credits_endpoints _ _ _ _ h
    obtain ⟨hk, hm⟩ := deduct_credits_tx_kind _ _ _ _ h
    refine ⟨hu, ha, ?_, hk, hm, hb, by omega⟩
    simp [applyOp, h]

/-- C3 witness: the theorem applied at a concrete active user and amount. -/
theorem C3_deduct_credits_spec_witness :
    (deduct_credits (some seatState.user) 3 = .error .insufficientCredits ↔
      seatState.user.credits_allocated - seatState.user.credits_used < 3) ∧
    (seatState.user.credits_allocated - seatState.user.credits_used < 3 →
      tryOp seatState (.deduct 3) = seatState) ∧
    (∀ u' tx, deduct_credits (some seatState.user) 3 = .ok (u', tx) →
      u'.credits_used = seatState.user.credits_used + 3 ∧
      u'.credits_allocated = seatState.user.credits_allocated ∧
      applyOp seatState (.deduct 3) =
        .ok { user := u', pools := seatState.pools, ledger := seatState.ledger ++ [tx] } ∧
      tx.transaction_type = "deduction" ∧
      tx.credits_amount = 3 ∧
      tx.credits_before = seatState.user.credits_allocated - seatState.user.credits_used ∧
      tx.credits_after = seatState.user.credits_allocated - seatState.user.credits_used - 3) :=
  C3_deduct_credits_spec seatState 3 (by decide)

/-- C10: `add_credits` succeeds for every existing user with no license or
sign check: it increments `credits_allocated` by the given amount, leaves
`credits_used` and the license flag alone, appends exactly one `addition`
transaction, and fails exactly on a missing user. -/
theorem C10_add_credits_spec (s : SysState) (c : Int) :
    add_credits none c = .error .userNotFound ∧
    ∃ u' tx,
      applyOp s (.add c) =
        .ok { user := u', pools := s.pools, ledger := s.ledger ++ [tx] } ∧
      u'.credits_allocated = s.user.credits_allocated + c ∧
      u'.credits_used = s.user.credits_used ∧
      u'.license_is_active = s.user.license_is_active ∧
      tx.transaction_type = "addition" ∧
      tx.credits_amount = c ∧
      tx.credits_before = s.user.credits_allocated - s.user.credits_used ∧
      tx.credits_after = s.user.credits_allocated + c - s.user.credits_used := by
  refine ⟨rfl, { s.user with credits_allocated := s.user.credits_allocated + c },
    { transaction_type := "addition", credits_amount := c,
      credits_before := s.user.credits_allocated - s.user.credits_used,
      credits_after := s.user.credits_allocated + c - s.user.credits_used },
    ?_, rfl, rfl, rfl, rfl, rfl, rfl, rfl⟩
  simp [applyOp, add_credits]

/-- C1 counterexample: `finalize_and_deduct` performs no sufficiency check,
so a successful metering deduction can leave an actively licensed user with
`credits_used > credits_allocated` (here 5 > 1), refuting the claim that
every successful ledger operation re-establishes
`0 <= credits_used <= credits_allocated`. -/
theorem C1_finalize_breaks_balance_invariant :
    ∃ u' tx,
      finalize_and_deduct nickelMeter (some lowUser) (some stdTier) = .deducted u' tx 5 ∧
      u'.license_is_active = true ∧
      u'.credits_allocated = 1 ∧ u'.credits_used = 5 ∧
      ¬(u'.credits_used ≤ u'.credits_allocated) := by
  have hmc : metered_credits nickelMeter stdTier = 5 := by
    norm_num [metered_credits, raw_credits, truncToInt, nickelMeter, stdTier]
  have h := finalize_deduct_eq nickelMeter lowUser stdTier
    (by norm_num [nickelMeter]) rfl rfl (by decide) (by rw [hmc]; norm_num)
  rw [hmc] at h
  exact ⟨_, _, h, rfl, rfl, by decide, by decide⟩

/-- C1 (amended): for an actively licensed user whose balance satisfies
`0 <= credits_used <= credits_allocated` before the call, a successful
`deduct_credits`, `add_credits` or `refund_credits` with a non-negative
amount re-establishes the invariant; `finalize_and_deduct` is excluded
because it deducts without any sufficiency check. -/
theorem C1_ledger_ops_preserve_balance_invariant (u : User) (c : Int)
    (hact : u.license_is_active = true)
    (h0 : 0 ≤ u.credits_used) (h1 : u.credits_used ≤ u.credits_allocated)
    (hc : 0 ≤ c) :
    (∀ u' tx, deduct_credits (some u) c = .ok (u', tx) →
      0 ≤ u'.credits_used ∧ u'.credits_used ≤ u'.credits_allocated) ∧
    (∀ u' tx, add_credits (some u) c = .ok (u', tx) →
      0 ≤ u'.credits_used ∧ u'.credits_used ≤ u'.credits_allocated) ∧
    (∀ u' tx, refund_credits (some u) c = .ok (u', tx) →
      0 ≤ u'.credits_used ∧ u'.credits_used ≤ u'.credits_allocated) := by
  refine ⟨?_, ?_, ?_⟩
  · intro u' tx h
    obtain ⟨ha, hu, _, _⟩ := deduct_credits_endpoints _ _ _ _ h
    obtain ⟨_, hcond⟩ := deduct_credits_ok_cond _ _ _ _ h
    omega
  · intro u' tx h
    obtain ⟨ha, hu, _, _⟩ := add_credits_endpoints _ _ _ _ h
    omega
  · intro u' tx h
    obtain ⟨ha, hu, _, _⟩ := refund_credits_endpoints _ _ _ _ h
    omega

/-- C1 witness: the amended invariant preservation applied at a concrete
active user and amount. -/
theorem C1_ledger_ops_preserve_balance_invariant_witness :
    (∀ u' tx, deduct_credits (some midUser) 2 = .ok (u', tx) →
      0 ≤ u'.credits_used ∧ u'.credits_used ≤ u'.credits_allocated) ∧
    (∀ u' tx, add_credits (some midUser) 2 = .ok (u', tx) →
      0 ≤ u'.credits_used ∧ u'.credits_used ≤ u'.credits_allocated) ∧
    (∀ u' tx, refund_credits (some midUser) 2 = .ok (u', tx) →
      0 ≤ u'.credits_used ∧ u'.credits_used ≤ u'.credits_allocated) :=
  C1_ledger_ops_preserve_balance_invariant midUser 2 (by decide) (by decide)
    (by decide) (by decide)

/-- C4 counterexample: `refund_credits` floors `credits_used` at zero but
records the full requested amount, so for a refund larger than
`credits_used` (7 > 5) the written row has
`credits_after - credits_before = 5 ≠ 7 = credits_amount`, refuting the
claim that the delta always equals the signed mutation amount. -/
theorem C4_refund_delta_mismatch :
    ∃ u' tx, refund_credits (some midUser) 7 = .ok (u', tx) ∧
      tx.transaction_type = "refund" ∧
      tx.credits_amount = 7 ∧
      tx.credits_before = 5 ∧ tx.credits_after = 10 ∧
      tx.credits_after - tx.credits_before ≠ tx.credits_amount :=
  ⟨_, _, rfl, rfl, rfl, rfl, rfl, by decide⟩

/-- C4 (amended): every successful ledger mutation appends exactly one
transaction row; for an addition the delta `credits_after - credits_before`
is `+credits_amount` and for a deduction it is `-credits_amount`, but for a
refund it is `min(credits_amount, credits_used before)` (the refund is
clamped at zero used credits while the row records the requested amount),
and for an upgrade it is the change of `credits_allocated`
(`default_credits - credits_used` when credits are preserved, else
`default_credits - credits_allocated before`). -/
theorem C4_transaction_delta_spec (s : SysState) :
    (∀ c s', applyOp s (.add c) = .ok s' →
      ∃ tx, s'.ledger = s.ledger ++ [tx] ∧ tx.transaction_type = "addition" ∧
        tx.credits_amount = c ∧ tx.credits_after - tx.credits_before = c) ∧
    (∀ c s', applyOp s (.deduct c) = .ok s' →
      ∃ tx, s'.ledger = s.ledger ++ [tx] ∧ tx.transaction_type = "deduction" ∧
        tx.credits_amount = c ∧ tx.credits_after - tx.credits_before = -c) ∧
    (∀ c s', 0 ≤ c → 0 ≤ s.user.credits_used → applyOp s (.refund c) = .ok s' →
      ∃ tx, s'.ledger = s.ledger ++ [tx] ∧ tx.transaction_type = "refund" ∧
        tx.credits_amount = c ∧
        tx.credits_after - tx.credits_before = min c s.user.credits_used) ∧
    (∀ ntid nt pc s', applyOp s (.upgrade ntid nt pc) = .ok s' →
      ∃ tx, s'.ledger = s.ledger ++ [tx] ∧ tx.transaction_type = "upgrade" ∧
        tx.credits_amount = nt.default_credits ∧
        tx.credits_after - tx.credits_before =
          (if pc = true then nt.default_credits - s.user.credits_used
           else nt.default_credits - s.user.credits_allocated)) := by
  refine ⟨?_, ?_, ?_, ?_⟩
  · intro c s' h
    simp only [applyOp] at h
    cases hd : add_credits (some s.user) c with
    | error e => rw [hd] at h; simp at h
    | ok p =>
      obtain ⟨u', tx⟩ := p
      rw [hd] at h
      simp only [Except.ok.injEq] at h
      subst h
      obtain ⟨ha, hu, hb, hf⟩ := add_credits_endpoints _ _ _ _ hd
      obtain ⟨hk, hm⟩ := add_credits_tx_kind _ _ _ _ hd
      exact ⟨tx, rfl, hk, hm, by omega⟩
  · intro c s' h
    simp only [applyOp] at h
    cases hd : deduct_credits (some s.user) c with
    | error e => rw [hd] at h; simp at h
    | ok p =>
      obtain ⟨u', tx⟩ := p
      rw [hd] at h
      simp only [Except.ok.injEq] at h
      subst h
      obtain ⟨ha, hu, hb, hf⟩ := deduct_credits_endpoints _ _ _ _ hd
      obtain ⟨hk, hm⟩ := deduct_credits_tx_kind _ _ _ _ hd
      exact ⟨tx, rfl, hk, hm, by omega⟩
  · intro c s' hc hused h
    simp only [applyOp] at h
    cases hd : refund_credits (some s.user) c with
    | error e => rw [hd] at h; simp at h
    | ok p =>
      obtain ⟨u', tx⟩ := p
      rw [hd] at h
      simp only [Except.ok.injEq] at h
      subst h
      obtain ⟨ha, hu, hb, hf⟩ := refund_credits_endpoints _ _ _ _ hd
      obtain ⟨hk, hm⟩ := refund_credits_tx_kind _ _ _ _ hd
      exact ⟨tx, rfl, hk, hm, by omega⟩
  · intro ntid nt pc s' h
    simp only [applyOp] at h
    cases hd : upgrade_user_license (some s.user) ntid (some nt) s.pools pc with
    | error e => rw [hd] at h; simp at h
    | ok p =>
      obtain ⟨u', pools', tx⟩ := p
      rw [hd] at h
      simp only [Except.ok.injEq] at h
      subst h
      obtain ⟨hk, hm, hb, hf, _, _⟩ := upgrade_tx_fields _ _ _ _ _ _ _ _ hd
      refine ⟨tx, rfl, hk, hm, ?_⟩
      cases pc <;> simp at hf ⊢ <;> omega

/-- C4 witness: the amended delta specification applied to one concrete
addition, deduction, refund and upgrade. -/
theorem C4_transaction_delta_spec_witness :
    (∃ tx, (tryOp seatState (.add 4)).ledger = seatState.ledger ++ [tx] ∧
      tx.transaction_type = "addition" ∧ tx.credits_amount = 4 ∧
      tx.credits_after - tx.credits_before = 4) ∧
    (∃ tx, (tryOp seatState (.deduct 4)).ledger = seatState.ledger ++ [tx] ∧
      tx.transaction_type = "deduction" ∧ tx.credits_amount = 4 ∧
      tx.credits_after - tx.credits_before = -4) ∧
    (∃ tx, (tryOp seatState (.refund 1)).ledger = seatState.ledger ++ [tx] ∧
      tx.transaction_type = "refund" ∧ tx.credits_amount = 1 ∧
      tx.credits_after - tx.credits_before = min 1 seatState.user.credits_used) ∧
    (∃ tx, (tryOp seatState (.upgrade 2 bigTier false)).ledger = seatState.ledger ++ [tx] ∧
      tx.transaction_type = "upgrade" ∧ tx.credits_amount = bigTier.default_credits ∧
      tx.credits_after - tx.credits_before =
        (if false = true then bigTier.default_credits - seatState.user.credits_used
         else bigTier.default_credits - seatState.user.credits_allocated)) := by
  obtain ⟨hA, hD, hR, hU⟩ := C4_transaction_delta_spec seatState
  exact ⟨hA 4 _ rfl, hD 4 _ rfl, hR 1 _ (by decide) (by decide) rfl,
    hU 2 bigTier false _ rfl⟩

/-- C2 counterexample: starting from a pool map satisfying
`available + assigned == total` in which the user's tier records zero
assignees, a successful `unassign_license_from_user` increments
`available_count` but floors `assigned_count` at 0, ending with
`3 + 0 ≠ 2` — the claimed postcondition fails. -/
theorem C2_unassign_breaks_pool_invariant :
    mapInvB strayPools = true ∧
    ∃ u' pools',
      unassign_license_from_user (some strayUser) strayPools = .ok (u', pools') ∧
      pools' = [(7, { total_count := 2, available_count := 3, assigned_count := 0 })] ∧
      mapInvB pools' = false :=
  ⟨rfl, _, _, rfl, rfl, rfl⟩

/-- C2 (amended): starting from a pool map in which every pool satisfies
`available_count + assigned_count == total_count`, a successful
`create_or_update_pool_for_tier` or `assign_license_to_user` preserves the
invariant for every pool, and so do `unassign_license_from_user` and
`upgrade_user_license` provided the pool entry of the tier being released
records at least one assignee (`releaseOk`), which is what the flooring
`max(0, assigned_count - 1)` otherwise breaks. -/
theorem C2_pool_ops_preserve_capacity (pools : PoolMap)
    (hinv : mapInvB pools = true) :
    (∀ tid total pools', create_or_update_pool_for_tier pools tid total = .ok pools' →
      mapInvB pools' = true) ∧
    (∀ u? tid t? u' pools', assign_license_to_user u? tid t? pools = .ok (u', pools') →
      mapInvB pools' = true) ∧
    (∀ u u' pools', releaseOk pools u.license_tier_id = true →
      unassign_license_from_user (some u) pools = .ok (u', pools') →
      mapInvB pools' = true) ∧
    (∀ u ntid nt pc u' pools' tx, releaseOk pools u.license_tier_id = true →
      upgrade_user_license (some u) ntid (some nt) pools pc = .ok (u', pools', tx) →
      mapInvB pools' = true) := by
  refine ⟨?_, ?_, ?_, ?_⟩
  · intro tid total pools' h
    simp only [create_or_update_pool_for_tier] at h
    split at h
    next pool hl =>
      split at h
      · simp at h
      · simp only [Except.ok.injEq] at h
        subst h
        exact mapInvB_setPool _ _ _ hinv (by simp only []; omega)
    next hl =>
      simp only [Except.ok.injEq] at h
      subst h
      exact mapInvB_setPool _ _ _ hinv (by simp only []; omega)
  · intro u? tid t? u' pools' h
    cases u? with
    | none => simp [assign_license_to_user] at h
    | some user =>
      simp only [assign_license_to_user] at h
      split at h
      · simp at h
      · split at h
        · simp at h
        · split at h
          · simp at h
          next tier ht? =>
            split at h
            · simp at h
            next pool hl =>
              split at h
              · simp at h
              · simp only [Except.ok.injEq, Prod.mk.injEq] at h
                obtain ⟨hu, hp⟩ := h
                subst hp
                have hpool := mapInvB_lookupPool pools tid pool hinv hl
                exact mapInvB_setPool _ _ _ hinv (by simp only []; omega)
  · intro u u' pools' hrel h
    simp only [unassign_license_from_user] at h
    split at h
    · simp at h
    · split at h
      · simp at h
      · simp only [Except.ok.injEq, Prod.mk.injEq] at h
        obtain ⟨hu, hp⟩ := h
        subst hp
        cases htid : u.license_tier_id with
        | none => simpa [htid] using hinv
        | some tid =>
          rw [htid] at hrel
          simp only [htid]
          exact mapInvB_poolRelease pools tid hinv hrel
  · intro u ntid nt pc u' pools' tx hrel h
    simp only [upgrade_user_license] at h
    split at h
    · simp at h
    · split at h
      · simp at h
      · split at h
        · simp at h
        next old_tid htid =>
          split at h
          · simp at h
          next pool hl =>
            split at h
            · simp at h
            · rw [htid] at hrel
              simp only [Except.ok.injEq, Prod.mk.injEq] at h
              obtain ⟨hu, hp, htx⟩ := h
              subst hp
              exact mapInvB_poolConsume _ _ (mapInvB_poolRelease pools old_tid hinv hrel)

/-- C2 witness: the amended preservation applied to one concrete instance
of each pool operation. -/
theorem C2_pool_ops_preserve_capacity_witness :
    (∀ pools', create_or_update_pool_for_tier twoTierPools 1 5 = .ok pools' →
      mapInvB pools' = true) ∧
    (∀ u' pools',
      assign_license_to_user (some freshUser) 2 (some bigTier) twoTierPools = .ok (u', pools') →
      mapInvB pools' = true) ∧
    (∀ u' pools',
      unassign_license_from_user (some seatUser) twoTierPools = .ok (u', pools') →
      mapInvB pools' = true) ∧
    (∀ u' pools' tx,
      upgrade_user_license (some seatUser) 2 (some bigTier) twoTierPools false =
        .ok (u', pools', tx) →
      mapInvB pools' = true) := by
  obtain ⟨hC, hA, hUn, hUp⟩ := C2_pool_ops_preserve_capacity twoTierPools (by decide)
  exact ⟨fun pools' h => hC 1 5 pools' h,
    fun u' pools' h => hA (some freshUser) 2 (some bigTier) u' pools' h,
    fun u' pools' h => hUn seatUser u' pools' (by decide) h,
    fun u' pools' tx h => hUp seatUser 2 bigTier false u' pools' tx (by decide) h⟩

/-- C8 counterexample: in the history deduct-then-upgrade, the upgrade row
records `credits_before = 10` (the pre-upgrade `credits_allocated`) while
the preceding deduction row has `credits_after = 7` (the remaining balance),
so consecutive rows do not chain as the claim states. -/
theorem C8_upgrade_breaks_chain :
    ∃ s', runOps seatState [LedgerOp.deduct 3, LedgerOp.upgrade 2 bigTier false] = .ok s' ∧
      s'.ledger =
        [{ transaction_type := "deduction", credits_amount := 3,
           credits_before := 10, credits_after := 7 },
         { transaction_type := "upgrade", credits_amount := 20,
           credits_before := 10, credits_after := 20 }] ∧
      chainOkB s'.ledger = false :=
  ⟨_, rfl, rfl, rfl⟩

/-- C8 (amended): in any sequential history of successful ledger mutations
of one user that contains no upgrade (deductions, additions, refunds and
metering deductions only), every transaction's `credits_before` equals the
previous transaction's `credits_after`, and the last row agrees with the
user row; an upgrade breaks the chain because it records `credits_before`
as the pre-upgrade `credits_allocated` instead of the remaining balance. -/
theorem C8_ledger_chain_without_upgrade (ops : List LedgerOp) (s s' : SysState)
    (hops : ops.all (fun op => !op.isUpgrade) = true)
    (hchain : chainOkB s.ledger = true) (hsync : syncOk s = true)
    (hrun : runOps s ops = .ok s') :
    chainOkB s'.ledger = true ∧ syncOk s' = true := by
  induction ops generalizing s with
  | nil =>
    simp only [runOps, Except.ok.injEq] at hrun
    subst hrun
    exact ⟨hchain, hsync⟩
  | cons op rest ih =>
    rw [List.all_cons, Bool.and_eq_true] at hops
    simp only [runOps] at hrun
    cases ha : applyOp s op with
    | error e => rw [ha] at hrun; simp at hrun
    | ok s1 =>
      rw [ha] at hrun
      have hgs := applyOp_goodStep s s1 op (by simpa using hops.1) ha
      obtain ⟨hc1, hs1⟩ := goodStep_inv s s1 hgs hchain hsync
      exact ih s1 hops.2 hc1 hs1 hrun

/-- C8 witness: the chain property applied to a concrete three-step
history. -/
theorem C8_ledger_chain_without_upgrade_witness :
    ∃ s', runOps seatState [LedgerOp.deduct 3, LedgerOp.add 5, LedgerOp.refund 2] = .ok s' ∧
      chainOkB s'.ledger = true ∧ syncOk s' = true := by
  have h := C8_ledger_chain_without_upgrade
    [LedgerOp.deduct 3, LedgerOp.add 5, LedgerOp.refund 2] seatState _
    (by decide) (by decide) (by decide) rfl
  exact ⟨_, rfl, h.1, h.2⟩

/-- C5 counterexample: `finalize_and_deduct` keeps no finalized flag, so a
second call on the same accumulated state (cost five cents, 500 tokens)
deducts 5 credits again — `credits_used` goes 0 → 5 → 10 and a second
deduction is produced, refuting the claimed at-most-one deduction. -/
theorem C5_double_finalize_deducts_twice :
    ∃ u1 tx1 u2 tx2,
      finalize_and_deduct nickelMeter (some lowUser) (some stdTier) = .deducted u1 tx1 5 ∧
      finalize_and_deduct nickelMeter (some u1) (some stdTier) = .deducted u2 tx2 5 ∧
      u1.credits_used = 5 ∧ u2.credits_used = 10 := by
  have hmc : metered_credits nickelMeter stdTier = 5 := by
    norm_num [metered_credits, raw_credits, truncToInt, nickelMeter, stdTier]
  have h1 := finalize_deduct_eq nickelMeter lowUser stdTier
    (by norm_num [nickelMeter]) rfl rfl (by decide) (by rw [hmc]; norm_num)
  rw [hmc] at h1
  have h2 := finalize_deduct_eq nickelMeter
    { lowUser with credits_used := lowUser.credits_used + 5 } stdTier
    (by norm_num [nickelMeter]) rfl rfl (by decide) (by rw [hmc]; norm_num)
  rw [hmc] at h2
  exact ⟨_, _, _, _, h1, h2, by decide, by decide⟩

/-- C5 (amended): `finalize_and_deduct` has no idempotence guard: whenever
the deduction path is taken (positive accumulated cost, non-superadmin,
active license, found tier, positive credit amount), a second call on the
unchanged accumulator deducts the same amount again and writes a second
deduction transaction; at-most-one deduction per execution is therefore the
caller's obligation, not enforced by the accumulator. -/
theorem C5_second_finalize_repeats_deduction (m : Meter) (u : User)
    (tier : LicenseTier)
    (hcost : 0 < m.total_cost) (hsa : u.is_platform_superadmin = false)
    (hact : u.license_is_active = true) (htid : u.license_tier_id ≠ none)
    (hcred : 0 < metered_credits m tier) :
    ∃ u1 tx1 u2 tx2,
      finalize_and_deduct m (some u) (some tier) =
        .deducted u1 tx1 (metered_credits m tier) ∧
      finalize_and_deduct m (some u1) (some tier) =
        .deducted u2 tx2 (metered_credits m tier) ∧
      u2.credits_used = u.credits_used + 2 * metered_credits m tier := by
  have h1 := finalize_deduct_eq m u tier hcost hsa hact htid hcred
  have h2 := finalize_deduct_eq m
    { u with credits_used := u.credits_used + metered_credits m tier } tier
    hcost hsa hact htid hcred
  refine ⟨_, _, _, _, h1, h2, ?_⟩
  show u.credits_used + metered_credits m tier + metered_credits m tier = _
  ring

/-- C5 witness: the repeated deduction applied at the concrete five-cent
accumulator. -/
theorem C5_second_finalize_repeats_deduction_witness :
    ∃ u1 tx1 u2 tx2,
      finalize_and_deduct nickelMeter (some lowUser) (some stdTier) =
        .deducted u1 tx1 (metered_credits nickelMeter stdTier) ∧
      finalize_and_deduct nickelMeter (some u1) (some stdTier) =
        .deducted u2 tx2 (metered_credits nickelMeter stdTier) ∧
      u2.credits_used =
        lowUser.credits_used + 2 * metered_credits nickelMeter stdTier :=
  C5_second_finalize_repeats_deduction nickelMeter lowUser stdTier
    (by norm_num [nickelMeter]) rfl rfl (by decide)
    (by norm_num [metered_credits, raw_credits, truncToInt, nickelMeter, stdTier])

/-- C6 counterexample: the Pricing Engine's conversion is
`quantize(Decimal("1"))`, i.e. round-half-even, not truncation: at cost
$0.015 with 100 credits per USD it returns 2, while truncating
`0.015 × 100 = 1.5` toward zero gives 1. -/
theorem C6_engine_rounds_half_even_not_truncate :
    calculate_credits_from_cost (3 / 200) (some stdTier) = .ok 2 ∧
    truncToInt ((3 / 200) * stdTier.credits_per_usd) = 1 ∧
    (2 : Int) ≠ 1 := by
  refine ⟨?_, ?_, by decide⟩
  · show Except.ok (roundHalfEven ((3 / 200) * stdTier.credits_per_usd)) = Except.ok 2
    norm_num [roundHalfEven, stdTier]
  · norm_num [truncToInt, stdTier]

/-- C6 (amended): `calculate_credits_from_cost` returns
`cost * credits_per_usd` rounded to the nearest integer with ties to the
even integer (the result is within 1/2 of the product and even on exact
halves); truncation toward zero — the claim's rule — is instead what the
metering callback's inline `int(...)` conversion applies, which for a
non-negative product is the floor. -/
theorem C6_engine_rounding_characterization (cost : ℚ) (tier : LicenseTier)
    (k : Int) (h : calculate_credits_from_cost cost (some tier) = .ok k) :
    ((k : ℚ) - 1 / 2 ≤ cost * tier.credits_per_usd ∧
      cost * tier.credits_per_usd ≤ (k : ℚ) + 1 / 2) ∧
    (cost * tier.credits_per_usd - (⌊cost * tier.credits_per_usd⌋ : ℚ) = 1 / 2 →
      k % 2 = 0) ∧
    (0 ≤ cost * tier.credits_per_usd →
      truncToInt (cost * tier.credits_per_usd) = ⌊cost * tier.credits_per_usd⌋) := by
  have hk : k = roundHalfEven (cost * tier.credits_per_usd) := by
    simp only [calculate_credits_from_cost, Except.ok.injEq] at h
    exact h.symm
  subst hk
  set q := cost * tier.credits_per_usd with hq
  have hf1 : (⌊q⌋ : ℚ) ≤ q := Int.floor_le q
  have hf2 : q < ⌊q⌋ + 1 := Int.lt_floor_add_one q
  have htr : 0 ≤ q → truncToInt q = ⌊q⌋ := by
    intro h0
    unfold truncToInt
    rw [if_pos h0]
  unfold roundHalfEven
  dsimp only
  split_ifs with h1 h2 h3
  · exact ⟨⟨by linarith, by linarith⟩, fun ht => by exfalso; linarith, htr⟩
  · refine ⟨⟨?_, ?_⟩, fun ht => by exfalso; linarith, htr⟩
    · push_cast
      linarith
    · push_cast
      linarith
  · have htie : q - ⌊q⌋ = 1 / 2 := le_antisymm (not_lt.mp h2) (not_lt.mp h1)
    exact ⟨⟨by linarith, by linarith⟩, fun _ => h3, htr⟩
  · have htie : q - ⌊q⌋ = 1 / 2 := le_antisymm (not_lt.mp h2) (not_lt.mp h1)
    refine ⟨⟨?_, ?_⟩, fun _ => by omega, htr⟩
    · push_cast
      linarith
    · push_cast
      linarith

/-- C6 witness: the rounding characterization applied at cost $0.015 and
100 credits per USD, where the product is the exact half 1.5 and the
returned value 2 is the even neighbour. -/
theorem C6_engine_rounding_characterization_witness :
    (((2 : Int) : ℚ) - 1 / 2 ≤ (3 / 200) * stdTier.credits_per_usd ∧
      (3 / 200) * stdTier.credits_per_usd ≤ ((2 : Int) : ℚ) + 1 / 2) ∧
    ((3 / 200) * stdTier.credits_per_usd -
        (⌊(3 / 200) * stdTier.credits_per_usd⌋ : ℚ) = 1 / 2 →
      (2 : Int) % 2 = 0) ∧
    (0 ≤ (3 / 200) * stdTier.credits_per_usd →
      truncToInt ((3 / 200) * stdTier.credits_per_usd) =
        ⌊(3 / 200) * stdTier.credits_per_usd⌋) :=
  C6_engine_rounding_characterization (3 / 200) stdTier 2
    (by show Except.ok (roundHalfEven ((3 / 200) * stdTier.credits_per_usd)) = Except.ok 2
        norm_num [roundHalfEven, stdTier])

/-- C7: `finalize_and_deduct` is a zero-deduction no-op (leaving the user
row and ledger unchanged) when the accumulated cost is non-positive, when
the user is a platform superadmin, and when the user has no active license;
and on the billing path, when the computed credit amount truncates to zero
but tokens were consumed, it deducts exactly 1 credit. -/
theorem C7_finalize_branch_spec (m : Meter) (u : User) (t? : Option LicenseTier)
    (tier : LicenseTier) (s : SysState) :
    (m.total_cost ≤ 0 → finalize_and_deduct m (some u) t? = .noop "no_cost_incurred") ∧
    (0 < m.total_cost → u.is_platform_superadmin = true →
      finalize_and_deduct m (some u) t? = .noop "superadmin") ∧
    (0 < m.total_cost → u.is_platform_superadmin = false →
      u.license_is_active = false →
      finalize_and_deduct m (some u) t? = .noop "no_active_license") ∧
    (∀ r, finalize_and_deduct m (some s.user) t? = .noop r →
      applyOp s (.finalize m t?) = .ok s) ∧
    (0 < m.total_cost → u.is_platform_superadmin = false →
      u.license_is_active = true → u.license_tier_id ≠ none →
      raw_credits m tier = 0 → 0 < m.total_tokens →
      finalize_and_deduct m (some u) (some tier) =
        .deducted { u with credits_used := u.credits_used + 1 }
          { transaction_type := "deduction", credits_amount := 1,
            credits_before := u.credits_allocated - u.credits_used,
            credits_after := u.credits_allocated - (u.credits_used + 1) } 1) := by
  refine ⟨?_, ?_, ?_, ?_, ?_⟩
  · intro h
    simp only [finalize_and_deduct]
    rw [if_pos h]
  · intro hc hs
    simp only [finalize_and_deduct]
    rw [if_neg (not_le.mpr hc), if_pos hs]
  · intro hc hs hact
    simp only [finalize_and_deduct]
    rw [if_neg (not_le.mpr hc), if_neg (by simp [hs]), if_pos (by simp [hact])]
  · intro r h
    simp only [applyOp, h]
  · intro hc hs hact htid hraw htok
    have hmc : metered_credits m tier = 1 := by
      simp [metered_credits, hraw, htok]
    have h := finalize_deduct_eq m u tier hc hs hact htid (by rw [hmc]; norm_num)
    rw [hmc] at h
    exact h

/-- C7 witness: each branch of the specification exercised at a concrete
accumulator and user: a fresh accumulator, a superadmin, an unlicensed user,
the unchanged-state fact, and the 1-credit floor at cost $0.00001. -/
theorem C7_finalize_branch_spec_witness :
    finalize_and_deduct Meter.init (some lowUser) (some stdTier) =
      .noop "no_cost_incurred" ∧
    finalize_and_deduct nickelMeter (some adminUser) (some stdTier) =
      .noop "superadmin" ∧
    finalize_and_deduct nickelMeter (some freshUser) (some stdTier) =
      .noop "no_active_license" ∧
    applyOp seatState (.finalize Meter.init (some stdTier)) = .ok seatState ∧
    finalize_and_deduct tinyMeter (some lowUser) (some stdTier) =
      .deducted { lowUser with credits_used := lowUser.credits_used + 1 }
        { transaction_type := "deduction", credits_amount := 1,
          credits_before := lowUser.credits_allocated - lowUser.credits_used,
          credits_after := lowUser.credits_allocated - (lowUser.credits_used + 1) } 1 := by
  refine ⟨?_, ?_, ?_, ?_, ?_⟩
  · exact (C7_finalize_branch_spec Meter.init lowUser (some stdTier) stdTier seatState).1
      (by norm_num [Meter.init])
  · exact (C7_finalize_branch_spec nickelMeter adminUser (some stdTier) stdTier seatState).2.1
      (by norm_num [nickelMeter]) rfl
  · exact (C7_finalize_branch_spec nickelMeter freshUser (some stdTier) stdTier seatState).2.2.1
      (by norm_num [nickelMeter]) rfl rfl
  · exact (C7_finalize_branch_spec Meter.init seatState.user (some stdTier) stdTier
      seatState).2.2.2.1 "no_cost_incurred"
      ((C7_finalize_branch_spec Meter.init seatState.user (some stdTier) stdTier
        seatState).1 (by norm_num [Meter.init]))
  · exact (C7_finalize_branch_spec tinyMeter lowUser (some stdTier) stdTier seatState).2.2.2.2
      (by norm_num [tinyMeter]) rfl rfl (by decide)
      (by norm_num [raw_credits, truncToInt, tinyMeter, stdTier])
      (by norm_num [tinyMeter])

/-- C9 counterexample: `renew_subscription` sets `next_payment_date` to the
old `renewal_date` plus 30 days, not to the old `next_payment_date` plus 30
days: with `renewal_date = 0` and `next_payment_date = 5` the result is 30,
not 35. -/
theorem C9_next_payment_not_advanced :
    ∃ sub' users',
      renew_subscription (some skewedSub) true [] 100 = .ok (sub', users') ∧
      skewedSub.next_payment_date = some 5 ∧
      sub'.next_payment_date = some 30 ∧
      sub'.next_payment_date ≠ some (5 + 30) :=
  ⟨_, _, rfl, rfl, rfl, by decide⟩

/-- C9 (amended): `renew_subscription` fails when the status is not
`active`; on success it sets both `renewal_date` and `next_payment_date` to
the previous `renewal_date` plus 30 days (so `next_payment_date` advances by
30 days only when it equalled `renewal_date`), stamps `last_payment_date`,
and tops up every user of the tenant holding an active license and a
non-null `credits_per_month` by exactly that amount, leaving `credits_used`
unchanged. -/
theorem C9_renew_spec (sub : Subscription) (users : List User) (now d : Int)
    (hst : sub.status = "active") (hrd : sub.renewal_date = some d) :
    (∀ sub2 tf us n, sub2.status ≠ "active" →
      renew_subscription (some sub2) tf us n = .error .subscriptionNotActive) ∧
    ∃ sub' users', renew_subscription (some sub) true users now = .ok (sub', users') ∧
      sub'.renewal_date = some (d + 30) ∧
      sub'.next_payment_date = some (d + 30) ∧
      sub'.last_payment_date = some now ∧
      sub'.status = sub.status ∧
      users' = users.map (renew_topup sub.tenant_id) ∧
      (∀ u c, u.tenant_id = some sub.tenant_id → u.license_is_active = true →
        u.credits_per_month = some c →
        (renew_topup sub.tenant_id u).credits_allocated = u.credits_allocated + c ∧
        (renew_topup sub.tenant_id u).credits_used = u.credits_used) := by
  constructor
  · intro sub2 tf us n hne
    simp [renew_subscription, hne]
  · have hred : renew_subscription (some sub) true users now =
        .ok ({ sub with last_payment_date := some now,
                        next_payment_date := some (d + 30),
                        renewal_date := some (d + 30) },
             users.map (renew_topup sub.tenant_id)) := by
      simp only [renew_subscription]
      rw [if_neg (by simp [hst]), hrd]
      simp
    refine ⟨_, _, hred, rfl, rfl, rfl, rfl, rfl, ?_⟩
    intro u c htid hact hcpm
    unfold renew_topup
    rw [if_pos ⟨htid, hact⟩, hcpm]
    by_cases hc : c = 0
    · subst hc
      simp
    · simp [hc]

/-- C9 witness: the renewal specification applied to an aligned subscription
and two licensed users with a 100-credit monthly allowance. -/
theorem C9_renew_spec_witness :
    (∀ sub2 tf us n, sub2.status ≠ "active" →
      renew_subscription (some sub2) tf us n = .error .subscriptionNotActive) ∧
    ∃ sub' users',
      renew_subscription (some renewSub) true [midUser, renewUserB] 40 = .ok (sub', users') ∧
      sub'.renewal_date = some (10 + 30) ∧
      sub'.next_payment_date = some (10 + 30) ∧
      sub'.last_payment_date = some 40 ∧
      sub'.status = renewSub.status ∧
      users' = [midUser, renewUserB].map (renew_topup renewSub.tenant_id) ∧
      (∀ u c, u.tenant_id = some renewSub.tenant_id → u.license_is_active = true →
        u.credits_per_month = some c →
        (renew_topup renewSub.tenant_id u).credits_allocated = u.credits_allocated + c ∧
        (renew_topup renewSub.tenant_id u).credits_used = u.credits_used) :=
  C9_renew_spec renewSub [midUser, renewUserB] 40 10 rfl rfl

end Kluisz
